import Mathlib

/-!
Shallow embedding of the `strainminer_logging` package
(`src/strainminer_logging/*.py`): hierarchical statistics records with
`to_dict` / `from_dict` document conversions.

Modelling conventions:
* A structured document node (the Python dict/list/scalar trees handed to
  `yaml.dump` and produced by `yaml.safe_load`) is a `DVal`.  Mappings are
  association lists of `String × DVal`, so key *order* is part of the value,
  matching Python 3.7+ dict insertion order and `sort_keys=False` dumping.
* Python `int` is `Int`, Python `str` is `String`; Python `float` fields
  (density, sparsity) are modelled as exact rationals `Rat` — no arithmetic
  is performed on them during encode/decode, they are carried verbatim.
* A Python function that can raise is an `Except String` computation; a
  missing dict key `k` (Python `KeyError(k)`) yields `.error k`, carrying
  the key name as the error payload.  Sequencing of the `d[...]` lookups
  follows Python's left-to-right argument evaluation order.
* Scalar division (`/` on counts in `from_bin_dataframe`) is modelled as a
  fallible operation that fails on a zero divisor.
* Python objects are immutable Lean structures; the one setter in the
  source (`set_number_of_columns`) becomes a functional record update.
* The thin collection classes (list wrappers with `append` / `extend` /
  iteration) are modelled as `List` of their element type; their
  `from_dicts` / `to_dicts` classmethods become functions in a namespace
  of the collection's name.
-/

/-- A structured document value: the YAML/JSON-like trees produced by
`to_dict` and consumed by `from_dict`. -/
inductive DVal : Type where
  | vint : Int → DVal
  | vstr : String → DVal
  | vrat : Rat → DVal
  | vnull : DVal
  | vlist : List DVal → DVal
  | vmap : List (String × DVal) → DVal

/-- Association-list lookup used by `DVal.getKey`; a missing key `k`
fails with `k` itself as the payload (Python `KeyError(k)`). -/
def lookupKey (k : String) : List (String × DVal) → Except String DVal
  | [] => .error k
  | (k2, v) :: rest => if k2 = k then .ok v else lookupKey k rest

/-- `d[k]` on a document node: succeeds only on a mapping holding `k`. -/
def DVal.getKey (d : DVal) (k : String) : Except String DVal :=
  match d with
  | .vmap m => lookupKey k m
  | _ => .error k

/-- Keys of a mapping node, in order. -/
def DVal.mapKeys : DVal → List String
  | .vmap m => m.map Prod.fst
  | _ => []

/-- Read an integer scalar. -/
def asInt : DVal → Except String Int
  | .vint n => .ok n
  | _ => .error "expected int"

/-- Read a float scalar (modelled as a rational). -/
def asRat : DVal → Except String Rat
  | .vrat q => .ok q
  | _ => .error "expected float"

/-- Read a string scalar. -/
def asStr : DVal → Except String String
  | .vstr s => .ok s
  | _ => .error "expected str"

/-- Read a sequence node. -/
def asList : DVal → Except String (List DVal)
  | .vlist l => .ok l
  | _ => .error "expected list"

/-- Decode every element of a sequence, left to right, stopping at the
first failure (the Python `cls(f(d) for d in dicts)` pattern, which the
list-materialising constructors force eagerly). -/
def decodeAll {α : Type} (f : DVal → Except String α) :
    List DVal → Except String (List α)
  | [] => .ok []
  | d :: ds =>
    match f d with
    | .error e => .error e
    | .ok x =>
      match decodeAll f ds with
      | .error e => .error e
      | .ok xs => .ok (x :: xs)

/-- The Python `f(d[k]) if d[k] is not None else None` decoding pattern. -/
def decodeOpt {α : Type} (f : DVal → Except String α) :
    DVal → Except String (Option α)
  | .vnull => .ok none
  | v =>
    match f v with
    | .error e => .error e
    | .ok x => .ok (some x)

/-- The Python `x.to_dict() if x is not None else None` encoding pattern. -/
def encodeOpt {α : Type} (f : α → DVal) : Option α → DVal
  | none => .vnull
  | some x => f x

@[simp] theorem exceptBindOk {ε α β : Type} (a : α) (f : α → Except ε β) :
    (Except.ok a >>= f) = f a := rfl

@[simp] theorem exceptBindErr {ε α β : Type} (e : ε) (f : α → Except ε β) :
    ((Except.error e : Except ε α) >>= f) = .error e := rfl

/-- `src/strainminer_logging/binmatrix.py`, class `BinMatrixStats`:
scalar snapshot of a binary matrix. -/
structure BinMatrixStats where
  number_of_rows : Int
  number_of_columns : Int
  number_of_ones : Int
  number_of_zeros : Int
  density : Rat
  sparsity : Rat
deriving DecidableEq

/-- `BinMatrixStats.from_dict`. -/
def BinMatrixStats.from_dict (d : DVal) : Except String BinMatrixStats := do
  let r ← d.getKey "number_of_rows" >>= asInt
  let c ← d.getKey "number_of_columns" >>= asInt
  let o ← d.getKey "number_of_ones" >>= asInt
  let z ← d.getKey "number_of_zeros" >>= asInt
  let dens ← d.getKey "density" >>= asRat
  let spar ← d.getKey "sparsity" >>= asRat
  return ⟨r, c, o, z, dens, spar⟩

/-- `BinMatrixStats.to_dict`. -/
def BinMatrixStats.to_dict (s : BinMatrixStats) : DVal :=
  .vmap [
    ("number_of_rows", .vint s.number_of_rows),
    ("number_of_columns", .vint s.number_of_columns),
    ("number_of_ones", .vint s.number_of_ones),
    ("number_of_zeros", .vint s.number_of_zeros),
    ("density", .vrat s.density),
    ("sparsity", .vrat s.sparsity)]

theorem BinMatrixStats_from_to_dict (s : BinMatrixStats) :
    BinMatrixStats.from_dict s.to_dict = .ok s := rfl

/-- `src/strainminer_logging/binmatrix.py`, `BinMatrixStats.from_bin_dataframe`
input: a rectangular boolean dataframe, modelled as the list of its rows
(`shape[0] = rows.length`, `shape[1] = ncols`), cells carried as `Int` —
the code only compares them to 1 and 0. -/
structure DataFrame where
  ncols : Nat
  rows : List (List Int)
  wf : ∀ r ∈ rows, r.length = ncols

/-- `(df == v).sum().sum()` as a natural number: cells equal to `v`. -/
def countEqN (v : Int) (rows : List (List Int)) : Nat :=
  (rows.map fun r => (r.filter fun c => c = v).length).sum

/-- `(df == v).sum().sum()`: number of cells equal to `v`. -/
def countEq (v : Int) (rows : List (List Int)) : Int :=
  (countEqN v rows : Int)

/-- Scalar division of two counts; fails on a zero divisor
(Python division by zero is an error, not a value). -/
def ratDiv (a b : Int) : Except String Rat :=
  if b = 0 then .error "division by zero" else .ok ((a : Rat) / (b : Rat))

/-- `BinMatrixStats.from_bin_dataframe`: counts the cells equal to 1 and
to 0 and divides both counts by the total cell count, unconditionally. -/
def BinMatrixStats.from_bin_dataframe (df : DataFrame) :
    Except String BinMatrixStats := do
  let number_of_ones := countEq 1 df.rows
  let number_of_zeros := countEq 0 df.rows
  let number_of_cells : Int := (df.rows.length : Int) * (df.ncols : Int)
  let dens ← ratDiv number_of_ones number_of_cells
  let spar ← ratDiv number_of_zeros number_of_cells
  return ⟨df.rows.length, df.ncols, number_of_ones, number_of_zeros,
          dens, spar⟩

/-- `src/strainminer_logging/strips/bipart.py`, enum `BiPartClass`. -/
inductive BiPartClass : Type where
  | ZERO : BiPartClass
  | ONE : BiPartClass
deriving DecidableEq

/-- The numeric `.value` of the enum member. -/
def BiPartClass.value : BiPartClass → Int
  | .ZERO => 0
  | .ONE => 1

/-- The enum constructor call `BiPartClass(v)`: fails (Python `ValueError`)
outside {0, 1}. -/
def BiPartClass.ofValue (v : Int) : Except String BiPartClass :=
  if v = 0 then .ok .ZERO
  else if v = 1 then .ok .ONE
  else .error "invalid BiPartClass value"

/-- `BiPartClass.complement`: `BiPartClass(1 - self.value)`.  The result is
`Except` because the enum constructor is fallible; on the two actual
members it always succeeds. -/
def BiPartClass.complement (c : BiPartClass) : Except String BiPartClass :=
  BiPartClass.ofValue (1 - c.value)

/-- `src/strainminer_logging/strips/bipart.py`, class `BiPartStats`. -/
structure BiPartStats where
  index : Int
  bipart_class : BiPartClass
  binmatrix_stats : BinMatrixStats
deriving DecidableEq

/-- `BiPartStats.from_dict`. -/
def BiPartStats.from_dict (d : DVal) : Except String BiPartStats := do
  let i ← d.getKey "index" >>= asInt
  let cv ← d.getKey "class" >>= asInt
  let c ← BiPartClass.ofValue cv
  let m ← d.getKey "binmatrix_stats" >>= BinMatrixStats.from_dict
  return ⟨i, c, m⟩

/-- `BiPartStats.to_dict`. -/
def BiPartStats.to_dict (s : BiPartStats) : DVal :=
  .vmap [
    ("index", .vint s.index),
    ("class", .vint s.bipart_class.value),
    ("binmatrix_stats", s.binmatrix_stats.to_dict)]

theorem BiPartStats_from_to_dict (s : BiPartStats) :
    BiPartStats.from_dict s.to_dict = .ok s := by
  obtain ⟨i, c, m⟩ := s
  cases c <;>
    simp [BiPartStats.from_dict, BiPartStats.to_dict, DVal.getKey,
      lookupKey, asInt, BiPartClass.ofValue, BiPartClass.value,
      BinMatrixStats_from_to_dict]

/-- `src/strainminer_logging/strips/qbc.py`, class `UnassignedReadStats`. -/
structure UnassignedReadStats where
  read_id : String
  number_of_ones : Int
  number_of_zeros : Int
deriving DecidableEq

/-- `UnassignedReadStats.from_dict`. -/
def UnassignedReadStats.from_dict (d : DVal) :
    Except String UnassignedReadStats := do
  let rid ← d.getKey "read_id" >>= asStr
  let o ← d.getKey "number_of_ones" >>= asInt
  let z ← d.getKey "number_of_zeros" >>= asInt
  return ⟨rid, o, z⟩

/-- `UnassignedReadStats.to_dict`. -/
def UnassignedReadStats.to_dict (s : UnassignedReadStats) : DVal :=
  .vmap [
    ("read_id", .vstr s.read_id),
    ("number_of_ones", .vint s.number_of_ones),
    ("number_of_zeros", .vint s.number_of_zeros)]

theorem UnassignedReadStats_from_to_dict (s : UnassignedReadStats) :
    UnassignedReadStats.from_dict s.to_dict = .ok s := rfl

/-- `decodeAll` inverts an element-wise encoding. -/
theorem decodeAll_map {α : Type} (f : DVal → Except String α) (g : α → DVal)
    (h : ∀ x, f (g x) = .ok x) (xs : List α) :
    decodeAll f (xs.map g) = .ok xs := by
  induction xs with
  | nil => rfl
  | cons a as ih => simp [decodeAll, h a, ih]

/-- `src/strainminer_logging/strips/hca.py`, class `LowQualityHCAStripStats`. -/
structure LowQualityHCAStripStats where
  strip_number : Int
  number_of_columns : Int
  bin_matrices_stats : List BinMatrixStats
deriving DecidableEq

/-- `LowQualityHCAStripStats.from_dict`. -/
def LowQualityHCAStripStats.from_dict (d : DVal) :
    Except String LowQualityHCAStripStats := do
  let sn ← d.getKey "strip_number" >>= asInt
  let nc ← d.getKey "number_of_columns" >>= asInt
  let ms ← d.getKey "bin_matrices_stats" >>= asList >>=
    decodeAll BinMatrixStats.from_dict
  return ⟨sn, nc, ms⟩

/-- `LowQualityHCAStripStats.to_dict`. -/
def LowQualityHCAStripStats.to_dict (s : LowQualityHCAStripStats) : DVal :=
  .vmap [
    ("strip_number", .vint s.strip_number),
    ("number_of_columns", .vint s.number_of_columns),
    ("bin_matrices_stats",
      .vlist (s.bin_matrices_stats.map BinMatrixStats.to_dict))]

theorem LowQualityHCAStripStats_from_to_dict (s : LowQualityHCAStripStats) :
    LowQualityHCAStripStats.from_dict s.to_dict = .ok s := by
  simp [LowQualityHCAStripStats.from_dict, LowQualityHCAStripStats.to_dict,
    DVal.getKey, lookupKey, asInt, asList,
    decodeAll_map BinMatrixStats.from_dict BinMatrixStats.to_dict
      BinMatrixStats_from_to_dict]

/-- `src/strainminer_logging/strips/hca.py`, class `HCAStripStats`. -/
structure HCAStripStats where
  index : Int
  number_of_columns : Int
  bipart_stats : List BiPartStats
deriving DecidableEq

/-- `HCAStripStats.set_number_of_columns`: the one setter method; the
mutation becomes a functional record update. -/
def HCAStripStats.set_number_of_columns (s : HCAStripStats) (n : Int) :
    HCAStripStats :=
  { s with number_of_columns := n }

/-- `HCAStripStats.from_dict`. -/
def HCAStripStats.from_dict (d : DVal) : Except String HCAStripStats := do
  let i ← d.getKey "index" >>= asInt
  let nc ← d.getKey "number_of_columns" >>= asInt
  let bs ← d.getKey "bipart_stats" >>= asList >>=
    decodeAll BiPartStats.from_dict
  return ⟨i, nc, bs⟩

/-- `HCAStripStats.to_dict`. -/
def HCAStripStats.to_dict (s : HCAStripStats) : DVal :=
  .vmap [
    ("index", .vint s.index),
    ("number_of_columns", .vint s.number_of_columns),
    ("bipart_stats", .vlist (s.bipart_stats.map BiPartStats.to_dict))]

theorem HCAStripStats_from_to_dict (s : HCAStripStats) :
    HCAStripStats.from_dict s.to_dict = .ok s := by
  simp [HCAStripStats.from_dict, HCAStripStats.to_dict,
    DVal.getKey, lookupKey, asInt, asList,
    decodeAll_map BiPartStats.from_dict BiPartStats.to_dict
      BiPartStats_from_to_dict]

/-- `HCAPreStripStatsCollection.from_dicts` (a list wrapper over
`BinMatrixStats`). -/
def HCAPreStripStatsCollection.from_dicts (ds : List DVal) :
    Except String (List BinMatrixStats) :=
  decodeAll BinMatrixStats.from_dict ds

/-- `HCAPreStripStatsCollection.to_dicts`. -/
def HCAPreStripStatsCollection.to_dicts (xs : List BinMatrixStats) :
    List DVal :=
  xs.map BinMatrixStats.to_dict

/-- `LowQualityHCAStripStatsCollection.from_dicts`. -/
def LowQualityHCAStripStatsCollection.from_dicts (ds : List DVal) :
    Except String (List LowQualityHCAStripStats) :=
  decodeAll LowQualityHCAStripStats.from_dict ds

/-- `LowQualityHCAStripStatsCollection.to_dicts`. -/
def LowQualityHCAStripStatsCollection.to_dicts
    (xs : List LowQualityHCAStripStats) : List DVal :=
  xs.map LowQualityHCAStripStats.to_dict

/-- `HCAStripStatsCollection.from_dicts`. -/
def HCAStripStatsCollection.from_dicts (ds : List DVal) :
    Except String (List HCAStripStats) :=
  decodeAll HCAStripStats.from_dict ds

/-- `HCAStripStatsCollection.to_dicts`. -/
def HCAStripStatsCollection.to_dicts (xs : List HCAStripStats) : List DVal :=
  xs.map HCAStripStats.to_dict

/-- `src/strainminer_logging/strips/hca.py`, class `HCAProcessStats`. -/
structure HCAProcessStats where
  low_quality_prestrips_stats : List BinMatrixStats
  high_quality_prestrips_stats : List BinMatrixStats
  low_quality_hca_strip_stats : List LowQualityHCAStripStats
  high_quality_hca_strip_stats : List HCAStripStats
deriving DecidableEq

/-- `HCAProcessStats.from_dict`. -/
def HCAProcessStats.from_dict (d : DVal) : Except String HCAProcessStats := do
  let lp ← d.getKey "low_quality_prestrips_stats" >>= asList >>=
    HCAPreStripStatsCollection.from_dicts
  let hp ← d.getKey "high_quality_prestrips_stats" >>= asList >>=
    HCAPreStripStatsCollection.from_dicts
  let ls ← d.getKey "low_quality_hca_strip_stats" >>= asList >>=
    LowQualityHCAStripStatsCollection.from_dicts
  let hs ← d.getKey "high_quality_hca_strip_stats" >>= asList >>=
    HCAStripStatsCollection.from_dicts
  return ⟨lp, hp, ls, hs⟩

/-- `HCAProcessStats.to_dict`. -/
def HCAProcessStats.to_dict (s : HCAProcessStats) : DVal :=
  .vmap [
    ("low_quality_prestrips_stats",
      .vlist (HCAPreStripStatsCollection.to_dicts s.low_quality_prestrips_stats)),
    ("high_quality_prestrips_stats",
      .vlist (HCAPreStripStatsCollection.to_dicts s.high_quality_prestrips_stats)),
    ("low_quality_hca_strip_stats",
      .vlist (LowQualityHCAStripStatsCollection.to_dicts s.low_quality_hca_strip_stats)),
    ("high_quality_hca_strip_stats",
      .vlist (HCAStripStatsCollection.to_dicts s.high_quality_hca_strip_stats))]

theorem HCAProcessStats_from_to_dict (s : HCAProcessStats) :
    HCAProcessStats.from_dict s.to_dict = .ok s := by
  simp [HCAProcessStats.from_dict, HCAProcessStats.to_dict,
    DVal.getKey, lookupKey, asList,
    HCAPreStripStatsCollection.from_dicts, HCAPreStripStatsCollection.to_dicts,
    LowQualityHCAStripStatsCollection.from_dicts,
    LowQualityHCAStripStatsCollection.to_dicts,
    HCAStripStatsCollection.from_dicts, HCAStripStatsCollection.to_dicts,
    decodeAll_map BinMatrixStats.from_dict BinMatrixStats.to_dict
      BinMatrixStats_from_to_dict,
    decodeAll_map LowQualityHCAStripStats.from_dict
      LowQualityHCAStripStats.to_dict LowQualityHCAStripStats_from_to_dict,
    decodeAll_map HCAStripStats.from_dict HCAStripStats.to_dict
      HCAStripStats_from_to_dict]

/-- `src/strainminer_logging/strips/qbc.py`, class `QBCStripStats`. -/
structure QBCStripStats where
  index : Int
  number_of_columns : Int
  bipart_stats : List BiPartStats
  unassigned_reads : List UnassignedReadStats
deriving DecidableEq

/-- `QBCStripStats.set_number_of_columns`. -/
def QBCStripStats.set_number_of_columns (s : QBCStripStats) (n : Int) :
    QBCStripStats :=
  { s with number_of_columns := n }

/-- `QBCStripStats.number_of_biparts`. -/
def QBCStripStats.number_of_biparts (s : QBCStripStats) : Nat :=
  s.bipart_stats.length

/-- `QBCStripStats.number_of_unassigned_reads`. -/
def QBCStripStats.number_of_unassigned_reads (s : QBCStripStats) : Nat :=
  s.unassigned_reads.length

/-- `QBCStripStats.from_dict`. -/
def QBCStripStats.from_dict (d : DVal) : Except String QBCStripStats := do
  let i ← d.getKey "index" >>= asInt
  let nc ← d.getKey "number_of_columns" >>= asInt
  let bs ← d.getKey "bipart_stats" >>= asList >>=
    decodeAll BiPartStats.from_dict
  let ur ← d.getKey "unassigned_reads" >>= asList >>=
    decodeAll UnassignedReadStats.from_dict
  return ⟨i, nc, bs, ur⟩

/-- `QBCStripStats.to_dict`. -/
def QBCStripStats.to_dict (s : QBCStripStats) : DVal :=
  .vmap [
    ("index", .vint s.index),
    ("number_of_columns", .vint s.number_of_columns),
    ("bipart_stats", .vlist (s.bipart_stats.map BiPartStats.to_dict)),
    ("unassigned_reads",
      .vlist (s.unassigned_reads.map UnassignedReadStats.to_dict))]

theorem QBCStripStats_from_to_dict (s : QBCStripStats) :
    QBCStripStats.from_dict s.to_dict = .ok s := by
  simp [QBCStripStats.from_dict, QBCStripStats.to_dict,
    DVal.getKey, lookupKey, asInt, asList,
    decodeAll_map BiPartStats.from_dict BiPartStats.to_dict
      BiPartStats_from_to_dict,
    decodeAll_map UnassignedReadStats.from_dict UnassignedReadStats.to_dict
      UnassignedReadStats_from_to_dict]

/-- `src/strainminer_logging/strips/qbc.py`, class `QBCTrashStripStats`. -/
structure QBCTrashStripStats where
  index : Int
  matrix_stats : BinMatrixStats
deriving DecidableEq

/-- `QBCTrashStripStats.from_dict`. -/
def QBCTrashStripStats.from_dict (d : DVal) :
    Except String QBCTrashStripStats := do
  let i ← d.getKey "index" >>= asInt
  let m ← d.getKey "matrix_stats" >>= BinMatrixStats.from_dict
  return ⟨i, m⟩

/-- `QBCTrashStripStats.to_dict`. -/
def QBCTrashStripStats.to_dict (s : QBCTrashStripStats) : DVal :=
  .vmap [
    ("index", .vint s.index),
    ("matrix_stats", s.matrix_stats.to_dict)]

theorem QBCTrashStripStats_from_to_dict (s : QBCTrashStripStats) :
    QBCTrashStripStats.from_dict s.to_dict = .ok s := rfl

/-- `QBCStripStatsCollection.from_dicts`. -/
def QBCStripStatsCollection.from_dicts (ds : List DVal) :
    Except String (List QBCStripStats) :=
  decodeAll QBCStripStats.from_dict ds

/-- `QBCStripStatsCollection.to_dicts`. -/
def QBCStripStatsCollection.to_dicts (xs : List QBCStripStats) : List DVal :=
  xs.map QBCStripStats.to_dict

/-- `src/strainminer_logging/strips/qbc.py`, class `QBCProcessStats`. -/
structure QBCProcessStats where
  high_quality_strips_stats : List QBCStripStats
  trash_strip_stats : Option QBCTrashStripStats
deriving DecidableEq

/-- `QBCProcessStats.from_dict`. -/
def QBCProcessStats.from_dict (d : DVal) : Except String QBCProcessStats := do
  let hq ← d.getKey "high_quality_strips_stats" >>= asList >>=
    QBCStripStatsCollection.from_dicts
  let tr ← d.getKey "trash_strip_stats" >>=
    decodeOpt QBCTrashStripStats.from_dict
  return ⟨hq, tr⟩

/-- `QBCProcessStats.to_dict`. -/
def QBCProcessStats.to_dict (s : QBCProcessStats) : DVal :=
  .vmap [
    ("high_quality_strips_stats",
      .vlist (QBCStripStatsCollection.to_dicts s.high_quality_strips_stats)),
    ("trash_strip_stats",
      encodeOpt QBCTrashStripStats.to_dict s.trash_strip_stats)]

/-- `decodeOpt` inverts `encodeOpt` whenever the element encoding never
produces null and is itself invertible. -/
theorem decodeOpt_encodeOpt {α : Type} (f : DVal → Except String α)
    (g : α → DVal) (hg : ∀ x, g x ≠ DVal.vnull)
    (h : ∀ x, f (g x) = .ok x) (xo : Option α) :
    decodeOpt f (encodeOpt g xo) = .ok xo := by
  cases xo with
  | none => rfl
  | some x =>
    have hx := h x
    cases hgx : g x
    case vnull => exact absurd hgx (hg x)
    all_goals rw [hgx] at hx; simp [encodeOpt, hgx, decodeOpt, hx]

theorem QBCProcessStats_from_to_dict (s : QBCProcessStats) :
    QBCProcessStats.from_dict s.to_dict = .ok s := by
  simp [QBCProcessStats.from_dict, QBCProcessStats.to_dict,
    DVal.getKey, lookupKey, asList,
    QBCStripStatsCollection.from_dicts, QBCStripStatsCollection.to_dicts,
    decodeAll_map QBCStripStats.from_dict QBCStripStats.to_dict
      QBCStripStats_from_to_dict,
    decodeOpt_encodeOpt QBCTrashStripStats.from_dict QBCTrashStripStats.to_dict
      (fun x => by simp [QBCTrashStripStats.to_dict])
      QBCTrashStripStats_from_to_dict]

/-- `src/strainminer_logging/postprocess.py`, class `PostProcessStats`. -/
structure PostProcessStats where
  number_of_initial_haplotypes : Int
  number_of_low_quality_haplotypes : Int
  number_of_final_haplotypes : Int
deriving DecidableEq

/-- `PostProcessStats.from_dict`. -/
def PostProcessStats.from_dict (d : DVal) : Except String PostProcessStats := do
  let i ← d.getKey "number_of_initial_haplotypes" >>= asInt
  let l ← d.getKey "number_of_low_quality_haplotypes" >>= asInt
  let f ← d.getKey "number_of_final_haplotypes" >>= asInt
  return ⟨i, l, f⟩

/-- `PostProcessStats.to_dict`. -/
def PostProcessStats.to_dict (s : PostProcessStats) : DVal :=
  .vmap [
    ("number_of_initial_haplotypes", .vint s.number_of_initial_haplotypes),
    ("number_of_low_quality_haplotypes",
      .vint s.number_of_low_quality_haplotypes),
    ("number_of_final_haplotypes", .vint s.number_of_final_haplotypes)]

theorem PostProcessStats_from_to_dict (s : PostProcessStats) :
    PostProcessStats.from_dict s.to_dict = .ok s := rfl

/-- `src/strainminer_logging/loci_window.py`, class `LociWindowStats`. -/
structure LociWindowStats where
  start_pos : Int
  stop_pos : Int
deriving DecidableEq

/-- `LociWindowStats.from_dict`. -/
def LociWindowStats.from_dict (d : DVal) : Except String LociWindowStats := do
  let sp ← d.getKey "start_pos" >>= asInt
  let ep ← d.getKey "stop_pos" >>= asInt
  return ⟨sp, ep⟩

/-- `LociWindowStats.to_dict`. -/
def LociWindowStats.to_dict (s : LociWindowStats) : DVal :=
  .vmap [
    ("start_pos", .vint s.start_pos),
    ("stop_pos", .vint s.stop_pos)]

theorem LociWindowStats_from_to_dict (s : LociWindowStats) :
    LociWindowStats.from_dict s.to_dict = .ok s := rfl

/-- `src/strainminer_logging/loci_window.py`, class `LociWindowProcessStats`:
the window-level record with its three independently optional stage
fields. -/
structure LociWindowProcessStats where
  loci_window_stats : LociWindowStats
  hca_process_stats : Option HCAProcessStats
  qbc_process_stats : Option QBCProcessStats
  postprocess_stats : Option PostProcessStats
deriving DecidableEq

/-- `LociWindowProcessStats.from_dict`: each optional stage key is read
unconditionally; a null value yields an absent field, anything else is
decoded by the stage's `from_dict`. -/
def LociWindowProcessStats.from_dict (d : DVal) :
    Except String LociWindowProcessStats := do
  let lws ← d.getKey "loci_window_stats" >>= LociWindowStats.from_dict
  let hca ← d.getKey "hca_process_stats" >>=
    decodeOpt HCAProcessStats.from_dict
  let qbc ← d.getKey "qbc_process_stats" >>=
    decodeOpt QBCProcessStats.from_dict
  let pp ← d.getKey "postprocess_stats" >>=
    decodeOpt PostProcessStats.from_dict
  return ⟨lws, hca, qbc, pp⟩

/-- `LociWindowProcessStats.to_dict`: an absent stage is written as an
explicit null under its key; the key itself is always present. -/
def LociWindowProcessStats.to_dict (s : LociWindowProcessStats) : DVal :=
  .vmap [
    ("loci_window_stats", s.loci_window_stats.to_dict),
    ("hca_process_stats", encodeOpt HCAProcessStats.to_dict s.hca_process_stats),
    ("qbc_process_stats", encodeOpt QBCProcessStats.to_dict s.qbc_process_stats),
    ("postprocess_stats", encodeOpt PostProcessStats.to_dict s.postprocess_stats)]

theorem LociWindowProcessStats_from_to_dict (s : LociWindowProcessStats) :
    LociWindowProcessStats.from_dict s.to_dict = .ok s := by
  simp [LociWindowProcessStats.from_dict, LociWindowProcessStats.to_dict,
    DVal.getKey, lookupKey, LociWindowStats_from_to_dict,
    decodeOpt_encodeOpt HCAProcessStats.from_dict HCAProcessStats.to_dict
      (fun x => by simp [HCAProcessStats.to_dict])
      HCAProcessStats_from_to_dict,
    decodeOpt_encodeOpt QBCProcessStats.from_dict QBCProcessStats.to_dict
      (fun x => by simp [QBCProcessStats.to_dict])
      QBCProcessStats_from_to_dict,
    decodeOpt_encodeOpt PostProcessStats.from_dict PostProcessStats.to_dict
      (fun x => by simp [PostProcessStats.to_dict])
      PostProcessStats_from_to_dict]

/-- `LociWindowStatsCollection.from_dicts` (a list wrapper over
`LociWindowProcessStats`). -/
def LociWindowStatsCollection.from_dicts (ds : List DVal) :
    Except String (List LociWindowProcessStats) :=
  decodeAll LociWindowProcessStats.from_dict ds

/-- `LociWindowStatsCollection.to_dicts`. -/
def LociWindowStatsCollection.to_dicts (xs : List LociWindowProcessStats) :
    List DVal :=
  xs.map LociWindowProcessStats.to_dict

/-- `src/strainminer_logging/contig.py`, class `ContigStats`. -/
structure ContigStats where
  contig_name : String
  contig_length : Int
deriving DecidableEq

/-- `ContigStats.from_dict`: `contig_name` is read before
`contig_length` (Python keyword arguments evaluate left to right). -/
def ContigStats.from_dict (d : DVal) : Except String ContigStats := do
  let n ← d.getKey "contig_name" >>= asStr
  let l ← d.getKey "contig_length" >>= asInt
  return ⟨n, l⟩

/-- `ContigStats.to_dict`. -/
def ContigStats.to_dict (s : ContigStats) : DVal :=
  .vmap [
    ("contig_name", .vstr s.contig_name),
    ("contig_length", .vint s.contig_length)]

theorem ContigStats_from_to_dict (s : ContigStats) :
    ContigStats.from_dict s.to_dict = .ok s := rfl

/-- `src/strainminer_logging/contig.py`, class `ContigProcessStats`. -/
structure ContigProcessStats where
  contig_stats : ContigStats
  loci_windows_stats : List LociWindowProcessStats
deriving DecidableEq

/-- `ContigProcessStats.from_dict`: the contig node is decoded before any
of its windows. -/
def ContigProcessStats.from_dict (d : DVal) :
    Except String ContigProcessStats := do
  let cs ← d.getKey "contig_stats" >>= ContigStats.from_dict
  let ws ← d.getKey "loci_windows_stats" >>= asList >>=
    LociWindowStatsCollection.from_dicts
  return ⟨cs, ws⟩

/-- `ContigProcessStats.to_dict`. -/
def ContigProcessStats.to_dict (s : ContigProcessStats) : DVal :=
  .vmap [
    ("contig_stats", s.contig_stats.to_dict),
    ("loci_windows_stats",
      .vlist (LociWindowStatsCollection.to_dicts s.loci_windows_stats))]

theorem ContigProcessStats_from_to_dict (s : ContigProcessStats) :
    ContigProcessStats.from_dict s.to_dict = .ok s := by
  simp [ContigProcessStats.from_dict, ContigProcessStats.to_dict,
    DVal.getKey, lookupKey, asList, ContigStats_from_to_dict,
    LociWindowStatsCollection.from_dicts, LociWindowStatsCollection.to_dicts,
    decodeAll_map LociWindowProcessStats.from_dict
      LociWindowProcessStats.to_dict LociWindowProcessStats_from_to_dict]

/-- `ContigProcessStatsCollection.from_dicts`: the persisted top-level
document is a sequence of contig records. -/
def ContigProcessStatsCollection.from_dicts (ds : List DVal) :
    Except String (List ContigProcessStats) :=
  decodeAll ContigProcessStats.from_dict ds

/-- `ContigProcessStatsCollection.to_dicts`. -/
def ContigProcessStatsCollection.to_dicts (xs : List ContigProcessStats) :
    List DVal :=
  xs.map ContigProcessStats.to_dict

/-- C5: decoding a document whose contig node is missing the
`contig_length` key fails with an error naming exactly that key,
whatever the windows entry and the rest of the document hold (so no
window of that contig is parsed), and decoding the whole document aborts
with that same error and no partial output. -/
theorem claim_C5_missing_contig_length (name : String)
    (windows : DVal) (ds : List DVal) :
    ContigProcessStats.from_dict
        (DVal.vmap [("contig_stats", DVal.vmap [("contig_name", .vstr name)]),
                    ("loci_windows_stats", windows)]) =
      .error "contig_length" ∧
    ContigProcessStatsCollection.from_dicts
        (DVal.vmap [("contig_stats", DVal.vmap [("contig_name", .vstr name)]),
                    ("loci_windows_stats", windows)] :: ds) =
      .error "contig_length" := by
  constructor <;>
    simp [ContigProcessStats.from_dict, ContigProcessStatsCollection.from_dicts,
      decodeAll, ContigStats.from_dict, DVal.getKey, lookupKey, asStr]

/-- C6: every record's `to_dict` lists its keys in the declaration
(insertion) order of the interface, never alphabetically. -/
theorem claim_C6_key_order :
    (∀ s : BinMatrixStats, s.to_dict.mapKeys =
      ["number_of_rows", "number_of_columns", "number_of_ones",
       "number_of_zeros", "density", "sparsity"]) ∧
    (∀ s : BiPartStats, s.to_dict.mapKeys =
      ["index", "class", "binmatrix_stats"]) ∧
    (∀ s : UnassignedReadStats, s.to_dict.mapKeys =
      ["read_id", "number_of_ones", "number_of_zeros"]) ∧
    (∀ s : LowQualityHCAStripStats, s.to_dict.mapKeys =
      ["strip_number", "number_of_columns", "bin_matrices_stats"]) ∧
    (∀ s : HCAStripStats, s.to_dict.mapKeys =
      ["index", "number_of_columns", "bipart_stats"]) ∧
    (∀ s : QBCStripStats, s.to_dict.mapKeys =
      ["index", "number_of_columns", "bipart_stats", "unassigned_reads"]) ∧
    (∀ s : QBCTrashStripStats, s.to_dict.mapKeys =
      ["index", "matrix_stats"]) ∧
    (∀ s : HCAProcessStats, s.to_dict.mapKeys =
      ["low_quality_prestrips_stats", "high_quality_prestrips_stats",
       "low_quality_hca_strip_stats", "high_quality_hca_strip_stats"]) ∧
    (∀ s : QBCProcessStats, s.to_dict.mapKeys =
      ["high_quality_strips_stats", "trash_strip_stats"]) ∧
    (∀ s : PostProcessStats, s.to_dict.mapKeys =
      ["number_of_initial_haplotypes", "number_of_low_quality_haplotypes",
       "number_of_final_haplotypes"]) ∧
    (∀ s : LociWindowStats, s.to_dict.mapKeys =
      ["start_pos", "stop_pos"]) ∧
    (∀ s : LociWindowProcessStats, s.to_dict.mapKeys =
      ["loci_window_stats", "hca_process_stats", "qbc_process_stats",
       "postprocess_stats"]) ∧
    (∀ s : ContigStats, s.to_dict.mapKeys =
      ["contig_name", "contig_length"]) ∧
    (∀ s : ContigProcessStats, s.to_dict.mapKeys =
      ["contig_stats", "loci_windows_stats"]) :=
  ⟨fun _ => rfl, fun _ => rfl, fun _ => rfl, fun _ => rfl, fun _ => rfl,
   fun _ => rfl, fun _ => rfl, fun _ => rfl, fun _ => rfl, fun _ => rfl,
   fun _ => rfl, fun _ => rfl, fun _ => rfl, fun _ => rfl⟩

/-- C7: `BinMatrixStats.from_dict` never corrects inconsistent counts:
even when `ones + zeros ≠ rows × columns`, the decoded record carries
exactly the six values present in the node. -/
theorem claim_C7_no_silent_correction (r c o z : Int) (dens spar : Rat)
    (h : o + z ≠ r * c) :
    BinMatrixStats.from_dict (DVal.vmap [
      ("number_of_rows", .vint r),
      ("number_of_columns", .vint c),
      ("number_of_ones", .vint o),
      ("number_of_zeros", .vint z),
      ("density", .vrat dens),
      ("sparsity", .vrat spar)]) = .ok ⟨r, c, o, z, dens, spar⟩ := rfl

/-- Witness for C7 at rows=1, columns=1, ones=5, zeros=7. -/
theorem claim_C7_no_silent_correction_witness :
    ((5 : Int) + 7 ≠ 1 * 1) ∧
    BinMatrixStats.from_dict (DVal.vmap [
      ("number_of_rows", .vint 1),
      ("number_of_columns", .vint 1),
      ("number_of_ones", .vint 5),
      ("number_of_zeros", .vint 7),
      ("density", .vrat (1/2)),
      ("sparsity", .vrat (1/2))]) = .ok ⟨1, 1, 5, 7, 1/2, 1/2⟩ :=
  ⟨by decide,
   claim_C7_no_silent_correction 1 1 5 7 (1/2) (1/2) (by decide)⟩

/-- C8: `BiPartClass.complement` maps ZERO to ONE and ONE to ZERO
(successfully, despite going through the fallible enum constructor) and
is an involution. -/
theorem claim_C8_complement_involution :
    BiPartClass.complement .ZERO = .ok .ONE ∧
    BiPartClass.complement .ONE = .ok .ZERO ∧
    ∀ c : BiPartClass,
      (BiPartClass.complement c >>= BiPartClass.complement) = .ok c := by
  refine ⟨rfl, rfl, fun c => ?_⟩
  cases c <;> rfl

/-- C9: `set_number_of_columns` on either strip variant sets exactly the
column count and leaves every other field unchanged. -/
theorem claim_C9_set_columns_frame :
    (∀ (s : HCAStripStats) (n : Int),
      (s.set_number_of_columns n).number_of_columns = n ∧
      (s.set_number_of_columns n).index = s.index ∧
      (s.set_number_of_columns n).bipart_stats = s.bipart_stats) ∧
    (∀ (s : QBCStripStats) (n : Int),
      (s.set_number_of_columns n).number_of_columns = n ∧
      (s.set_number_of_columns n).index = s.index ∧
      (s.set_number_of_columns n).bipart_stats = s.bipart_stats ∧
      (s.set_number_of_columns n).unassigned_reads = s.unassigned_reads) :=
  ⟨fun _ _ => ⟨rfl, rfl, rfl⟩, fun _ _ => ⟨rfl, rfl, rfl, rfl⟩⟩

/-- C1: decoding the encoding of any record of any entity type — and of
any collection — yields a structurally equal record, with every
collection in the same insertion order (list equality), no reordering
and no deduplication. -/
theorem claim_C1_round_trip :
    (∀ x : BinMatrixStats, BinMatrixStats.from_dict x.to_dict = .ok x) ∧
    (∀ x : BiPartStats, BiPartStats.from_dict x.to_dict = .ok x) ∧
    (∀ x : UnassignedReadStats,
      UnassignedReadStats.from_dict x.to_dict = .ok x) ∧
    (∀ x : LowQualityHCAStripStats,
      LowQualityHCAStripStats.from_dict x.to_dict = .ok x) ∧
    (∀ x : HCAStripStats, HCAStripStats.from_dict x.to_dict = .ok x) ∧
    (∀ x : QBCStripStats, QBCStripStats.from_dict x.to_dict = .ok x) ∧
    (∀ x : QBCTrashStripStats,
      QBCTrashStripStats.from_dict x.to_dict = .ok x) ∧
    (∀ x : HCAProcessStats, HCAProcessStats.from_dict x.to_dict = .ok x) ∧
    (∀ x : QBCProcessStats, QBCProcessStats.from_dict x.to_dict = .ok x) ∧
    (∀ x : PostProcessStats, PostProcessStats.from_dict x.to_dict = .ok x) ∧
    (∀ x : LociWindowStats, LociWindowStats.from_dict x.to_dict = .ok x) ∧
    (∀ x : LociWindowProcessStats,
      LociWindowProcessStats.from_dict x.to_dict = .ok x) ∧
    (∀ x : ContigStats, ContigStats.from_dict x.to_dict = .ok x) ∧
    (∀ x : ContigProcessStats,
      ContigProcessStats.from_dict x.to_dict = .ok x) ∧
    (∀ xs : List BinMatrixStats,
      HCAPreStripStatsCollection.from_dicts
        (HCAPreStripStatsCollection.to_dicts xs) = .ok xs) ∧
    (∀ xs : List LowQualityHCAStripStats,
      LowQualityHCAStripStatsCollection.from_dicts
        (LowQualityHCAStripStatsCollection.to_dicts xs) = .ok xs) ∧
    (∀ xs : List HCAStripStats,
      HCAStripStatsCollection.from_dicts
        (HCAStripStatsCollection.to_dicts xs) = .ok xs) ∧
    (∀ xs : List QBCStripStats,
      QBCStripStatsCollection.from_dicts
        (QBCStripStatsCollection.to_dicts xs) = .ok xs) ∧
    (∀ xs : List LociWindowProcessStats,
      LociWindowStatsCollection.from_dicts
        (LociWindowStatsCollection.to_dicts xs) = .ok xs) ∧
    (∀ xs : List ContigProcessStats,
      ContigProcessStatsCollection.from_dicts
        (ContigProcessStatsCollection.to_dicts xs) = .ok xs) :=
  ⟨BinMatrixStats_from_to_dict, BiPartStats_from_to_dict,
   UnassignedReadStats_from_to_dict, LowQualityHCAStripStats_from_to_dict,
   HCAStripStats_from_to_dict, QBCStripStats_from_to_dict,
   QBCTrashStripStats_from_to_dict, HCAProcessStats_from_to_dict,
   QBCProcessStats_from_to_dict, PostProcessStats_from_to_dict,
   LociWindowStats_from_to_dict, LociWindowProcessStats_from_to_dict,
   ContigStats_from_to_dict, ContigProcessStats_from_to_dict,
   decodeAll_map _ _ BinMatrixStats_from_to_dict,
   decodeAll_map _ _ LowQualityHCAStripStats_from_to_dict,
   decodeAll_map _ _ HCAStripStats_from_to_dict,
   decodeAll_map _ _ QBCStripStats_from_to_dict,
   decodeAll_map _ _ LociWindowProcessStats_from_to_dict,
   decodeAll_map _ _ ContigProcessStats_from_to_dict⟩

/-- C2: each of the three optional stage fields of a window record is
written under an always-present key — as an explicit null exactly when
the field is absent, as a mapping otherwise — decodes back to exactly
the original field (absent to absent, empty-but-present to
empty-but-present), and the three fields vary independently (the record
is quantified over all combinations). -/
theorem claim_C2_optional_stage_fields (x : LociWindowProcessStats) :
    LociWindowProcessStats.from_dict x.to_dict = .ok x ∧
    x.to_dict.getKey "hca_process_stats" =
      .ok (encodeOpt HCAProcessStats.to_dict x.hca_process_stats) ∧
    x.to_dict.getKey "qbc_process_stats" =
      .ok (encodeOpt QBCProcessStats.to_dict x.qbc_process_stats) ∧
    x.to_dict.getKey "postprocess_stats" =
      .ok (encodeOpt PostProcessStats.to_dict x.postprocess_stats) ∧
    (encodeOpt HCAProcessStats.to_dict x.hca_process_stats = .vnull ↔
      x.hca_process_stats = none) ∧
    (encodeOpt QBCProcessStats.to_dict x.qbc_process_stats = .vnull ↔
      x.qbc_process_stats = none) ∧
    (encodeOpt PostProcessStats.to_dict x.postprocess_stats = .vnull ↔
      x.postprocess_stats = none) := by
  refine ⟨LociWindowProcessStats_from_to_dict x, rfl, rfl, rfl, ?_, ?_, ?_⟩
  · cases x.hca_process_stats <;> simp [encodeOpt, HCAProcessStats.to_dict]
  · cases x.qbc_process_stats <;> simp [encodeOpt, QBCProcessStats.to_dict]
  · cases x.postprocess_stats <;> simp [encodeOpt, PostProcessStats.to_dict]

theorem length_filter_one_add_zero_le (r : List Int) :
    (r.filter fun c => c = 1).length + (r.filter fun c => c = 0).length ≤
      r.length := by
  induction r with
  | nil => simp
  | cons a t ih =>
    by_cases h1 : a = 1
    · have h0 : ¬a = 0 := by subst h1; decide
      simp only [List.filter_cons, h1, h0, List.length_cons]
      simp
      omega
    · by_cases h0 : a = 0 <;>
        · simp only [List.filter_cons, h1, h0, List.length_cons]
          simp [h1, h0]
          omega

theorem length_filter_one_add_zero_eq (r : List Int)
    (h : ∀ c ∈ r, c = 0 ∨ c = 1) :
    (r.filter fun c => c = 1).length + (r.filter fun c => c = 0).length =
      r.length := by
  induction r with
  | nil => simp
  | cons a t ih =>
    have ht := ih fun c hc => h c (List.mem_cons_of_mem a hc)
    rcases h a (List.mem_cons_self a t) with h0 | h1
    · subst h0
      simp only [List.filter_cons, List.length_cons]
      simp
      omega
    · subst h1
      simp only [List.filter_cons, List.length_cons]
      simp
      omega

theorem length_filter_one_add_zero_lt (r : List Int) (x : Int) (hx : x ∈ r)
    (hx0 : x ≠ 0) (hx1 : x ≠ 1) :
    (r.filter fun c => c = 1).length + (r.filter fun c => c = 0).length <
      r.length := by
  induction r with
  | nil => cases hx
  | cons a t ih =>
    rcases List.mem_cons.mp hx with rfl | hxt
    · have hle := length_filter_one_add_zero_le t
      simp only [List.filter_cons, List.length_cons]
      simp [hx0, hx1]
      omega
    · have hlt := ih hxt
      by_cases h1 : a = 1
      · have h0 : ¬a = 0 := by subst h1; decide
        simp only [List.filter_cons, List.length_cons]
        simp [h1, h0]
        omega
      · by_cases h0 : a = 0 <;>
          · simp only [List.filter_cons, List.length_cons]
            simp [h1, h0]
            omega

theorem countEqN_cons (v : Int) (a : List Int) (t : List (List Int)) :
    countEqN v (a :: t) =
      (a.filter fun c => c = v).length + countEqN v t := by
  simp [countEqN]

theorem countEqN_pair_le (n : Nat) :
    ∀ rows : List (List Int), (∀ r ∈ rows, r.length = n) →
      countEqN 1 rows + countEqN 0 rows ≤ rows.length * n := by
  intro rows
  induction rows with
  | nil => intro _; simp [countEqN]
  | cons a t ih =>
    intro h
    have ha := h a (List.mem_cons_self a t)
    have ht := ih fun r hr => h r (List.mem_cons_of_mem a hr)
    have hle := length_filter_one_add_zero_le a
    simp only [countEqN_cons, List.length_cons, Nat.succ_mul]
    omega

theorem countEqN_pair_eq (n : Nat) :
    ∀ rows : List (List Int), (∀ r ∈ rows, r.length = n) →
      (∀ r ∈ rows, ∀ c ∈ r, c = 0 ∨ c = 1) →
      countEqN 1 rows + countEqN 0 rows = rows.length * n := by
  intro rows
  induction rows with
  | nil => intro _ _; simp [countEqN]
  | cons a t ih =>
    intro h hb
    have ha := h a (List.mem_cons_self a t)
    have hae := length_filter_one_add_zero_eq a (hb a (List.mem_cons_self a t))
    have ht := ih (fun r hr => h r (List.mem_cons_of_mem a hr))
      (fun r hr => hb r (List.mem_cons_of_mem a hr))
    simp only [countEqN_cons, List.length_cons, Nat.succ_mul]
    omega

theorem countEqN_pair_lt (n : Nat) :
    ∀ rows : List (List Int), (∀ r ∈ rows, r.length = n) →
      (∃ r ∈ rows, ∃ x ∈ r, x ≠ 0 ∧ x ≠ 1) →
      countEqN 1 rows + countEqN 0 rows < rows.length * n := by
  intro rows
  induction rows with
  | nil => intro _ hbad; simp at hbad
  | cons a t ih =>
    intro h hbad
    have ha := h a (List.mem_cons_self a t)
    have ht := fun r hr => h r (List.mem_cons_of_mem a hr)
    obtain ⟨r, hr, x, hx, hx0, hx1⟩ := hbad
    simp only [countEqN_cons, List.length_cons, Nat.succ_mul]
    rcases List.mem_cons.mp hr with rfl | hrt
    · have hstrict := length_filter_one_add_zero_lt r x hx hx0 hx1
      have hle := countEqN_pair_le n t ht
      omega
    · have hle := length_filter_one_add_zero_le a
      have hlt := ih ht ⟨r, hrt, x, hx, hx0, hx1⟩
      omega

/-- C3 counterexample: on the empty dataframe (0 rows, 0 columns) the
derivation path of `BinMatrixStats.from_bin_dataframe` runs straight
into the division by the zero cell count — there is no special case. -/
theorem claim_C3_counterexample :
    BinMatrixStats.from_bin_dataframe
      ⟨0, [], fun r hr => absurd hr (List.not_mem_nil r)⟩ =
      .error "division by zero" := rfl

/-- C3 (amended): `BinMatrixStats.from_bin_dataframe` divides by the
cell count unconditionally, with no empty-matrix special case: the
derivation hits a division error exactly when rows × columns = 0, and
succeeds otherwise. -/
theorem claim_C3_amended_division_error_iff_empty (df : DataFrame) :
    BinMatrixStats.from_bin_dataframe df = .error "division by zero" ↔
      (df.rows.length : Int) * (df.ncols : Int) = 0 := by
  by_cases h : (df.rows.length : Int) * (df.ncols : Int) = 0 <;>
    simp [BinMatrixStats.from_bin_dataframe, ratDiv, h]

/-- C4: on a boolean r × c matrix with r·c > 0 and k cells equal to 1,
`from_bin_dataframe` yields rows = r, columns = c, ones = k,
zeros = r·c − k, density = k/(r·c) and sparsity = (r·c − k)/(r·c). -/
theorem claim_C4_matrix_invariant (df : DataFrame)
    (hb : ∀ r ∈ df.rows, ∀ c ∈ r, c = 0 ∨ c = 1)
    (hpos : (0 : Int) < (df.rows.length : Int) * (df.ncols : Int)) :
    BinMatrixStats.from_bin_dataframe df = .ok
      ⟨df.rows.length, df.ncols, countEq 1 df.rows,
       (df.rows.length : Int) * (df.ncols : Int) - countEq 1 df.rows,
       (countEq 1 df.rows : Rat) /
         (((df.rows.length : Int) * (df.ncols : Int) : Int) : Rat),
       (((df.rows.length : Int) * (df.ncols : Int) -
           countEq 1 df.rows : Int) : Rat) /
         (((df.rows.length : Int) * (df.ncols : Int) : Int) : Rat)⟩ := by
  have hsum := countEqN_pair_eq df.ncols df.rows df.wf hb
  have hz : countEq 0 df.rows =
      (df.rows.length : Int) * (df.ncols : Int) - countEq 1 df.rows := by
    unfold countEq
    zify at hsum
    linarith
  simp [BinMatrixStats.from_bin_dataframe, ratDiv, hpos.ne', hz]

/-- The 4 × 3 boolean matrix with 5 cells equal to 1 from Scenario 1. -/
def dfScenario1 : DataFrame :=
  ⟨3, [[1, 1, 0], [0, 1, 0], [1, 0, 0], [1, 0, 0]], by decide⟩

/-- Witness for C4 at the concrete 4 × 3 matrix with 5 true cells. -/
theorem claim_C4_matrix_invariant_witness :
    ((∀ r ∈ dfScenario1.rows, ∀ c ∈ r, c = 0 ∨ c = 1) ∧
      (0 : Int) < (dfScenario1.rows.length : Int) * (dfScenario1.ncols : Int)) ∧
    BinMatrixStats.from_bin_dataframe dfScenario1 =
      .ok ⟨4, 3, 5, 7, 5 / 12, 7 / 12⟩ := by
  refine ⟨⟨by decide, by decide⟩, ?_⟩
  have h := claim_C4_matrix_invariant dfScenario1 (by decide) (by decide)
  rw [h]
  rfl

/-- C10: `from_bin_dataframe` counts as ones only cells exactly 1 and as
zeros only cells exactly 0, so a dataframe holding any other value
yields a record with ones + zeros strictly below rows × columns and
density + sparsity strictly below 1. -/
theorem claim_C10_nonbinary_breaks_invariant (df : DataFrame)
    (hbad : ∃ r ∈ df.rows, ∃ x ∈ r, x ≠ 0 ∧ x ≠ 1) :
    ∃ s : BinMatrixStats,
      BinMatrixStats.from_bin_dataframe df = .ok s ∧
      s.number_of_ones + s.number_of_zeros <
        s.number_of_rows * s.number_of_columns ∧
      s.density + s.sparsity < 1 := by
  obtain ⟨r, hr, x, hx, hx0, hx1⟩ := hbad
  have hrlen : 0 < r.length := List.length_pos.mpr (List.ne_nil_of_mem hx)
  have hnc : 0 < df.ncols := df.wf r hr ▸ hrlen
  have hrows : 0 < df.rows.length := List.length_pos.mpr (List.ne_nil_of_mem hr)
  have hcellsN : 0 < df.rows.length * df.ncols := Nat.mul_pos hrows hnc
  have hcells : (0 : Int) < (df.rows.length : Int) * (df.ncols : Int) := by
    exact_mod_cast hcellsN
  have hltN := countEqN_pair_lt df.ncols df.rows df.wf ⟨r, hr, x, hx, hx0, hx1⟩
  have hlt : countEq 1 df.rows + countEq 0 df.rows <
      (df.rows.length : Int) * (df.ncols : Int) := by
    unfold countEq
    zify at hltN
    linarith
  refine ⟨⟨df.rows.length, df.ncols, countEq 1 df.rows, countEq 0 df.rows,
      (countEq 1 df.rows : Rat) /
        (((df.rows.length : Int) * (df.ncols : Int) : Int) : Rat),
      (countEq 0 df.rows : Rat) /
        (((df.rows.length : Int) * (df.ncols : Int) : Int) : Rat)⟩,
    ?_, ?_, ?_⟩
  · simp [BinMatrixStats.from_bin_dataframe, ratDiv, hcells.ne']
  · exact hlt
  · have hcQ : (0 : Rat) <
        (((df.rows.length : Int) * (df.ncols : Int) : Int) : Rat) := by
      exact_mod_cast hcells
    have hltQ : ((countEq 1 df.rows : Int) : Rat) +
        ((countEq 0 df.rows : Int) : Rat) <
        (((df.rows.length : Int) * (df.ncols : Int) : Int) : Rat) := by
      exact_mod_cast hlt
    rw [div_add_div_same, div_lt_one hcQ]
    exact hltQ

/-- A 1 × 1 dataframe whose only cell is 2: neither 0 nor 1. -/
def dfNonBinary : DataFrame := ⟨1, [[2]], by decide⟩

/-- Witness for C10 at the 1 × 1 dataframe containing the value 2. -/
theorem claim_C10_nonbinary_breaks_invariant_witness :
    (∃ r ∈ dfNonBinary.rows, ∃ x ∈ r, x ≠ 0 ∧ x ≠ 1) ∧
    ∃ s : BinMatrixStats,
      BinMatrixStats.from_bin_dataframe dfNonBinary = .ok s ∧
      s.number_of_ones + s.number_of_zeros <
        s.number_of_rows * s.number_of_columns ∧
      s.density + s.sparsity < 1 :=
  ⟨by decide, claim_C10_nonbinary_breaks_invariant dfNonBinary (by decide)⟩
